import Mathlib

/-!
Verification of the BeatCrafterAI pipeline against its specification.

The definitions below are a shallow embedding of the pipeline code:

* `downloadMap`, `downloadAllRun` embed
  `beatcrafter_ai/downloader/scrape_and_download.py` (`BeatSaverDownloader`);
* `convertAudio`, `convertAllRun` embed
  `ai_beat_saber/converter/convert_audio.py` (`AudioConverter`);
* the pipeline state machine embeds `beatcrafter_ai/run_pipeline.py`;
* `writePrunedFile` embeds the serialization step of
  `ai_beat_saber/post_processor/prune_maps.py` (`MapPruner.process_all`);
* the semaphore transition system embeds the `asyncio.Semaphore` admission
  discipline used by both the downloader and the converter.

File contents are byte lists; a directory is an association list from file
name to contents (later bindings shadow earlier ones, as produced by
`fmWrite`).  External effects (HTTP fetches, audio decoding, archive
extraction) are supplied as environment parameters: the code treats them as
opaque fallible calls, so the embedding does too.
-/

abbrev Bytes := List Nat

abbrev FileMap := List (String × Bytes)

/-- Read a file from a directory (first binding wins, like a file system). -/
def fmRead : FileMap → String → Option Bytes
  | [], _ => none
  | (q, b) :: rest, p => if q = p then some b else fmRead rest p

/-- Write (create or overwrite) a file. -/
def fmWrite (fs : FileMap) (p : String) (b : Bytes) : FileMap :=
  (p, b) :: fs

/-- Delete a file (`Path.unlink`). -/
def fmErase : FileMap → String → FileMap
  | [], _ => []
  | (q, b) :: rest, p => if q = p then fmErase rest p else (q, b) :: fmErase rest p

theorem fmRead_write_self (fs : FileMap) (p : String) (b : Bytes) :
    fmRead (fmWrite fs p b) p = some b := by
  simp [fmRead, fmWrite]

theorem fmRead_write_other (fs : FileMap) (p q : String) (b : Bytes) (h : q ≠ p) :
    fmRead (fmWrite fs p b) q = fmRead fs q := by
  rw [fmWrite, fmRead, if_neg (fun hpq : p = q => h hpq.symm)]

theorem fmRead_erase_self (fs : FileMap) (p : String) :
    fmRead (fmErase fs p) p = none := by
  induction fs with
  | nil => simp [fmErase, fmRead]
  | cons e rest ih =>
    by_cases h : e.1 = p
    · simpa [fmErase, h] using ih
    · simp [fmErase, h, fmRead, ih]

theorem fmRead_erase_other (fs : FileMap) (p q : String) (h : q ≠ p) :
    fmRead (fmErase fs p) q = fmRead fs q := by
  induction fs with
  | nil => simp [fmErase]
  | cons e rest ih =>
    by_cases he : e.1 = p
    · rw [fmErase]
      simp only [he, if_true]
      rw [ih, fmRead]
      have : ¬ e.1 = q := by rw [he]; exact fun hq => h hq.symm
      simp [this]
    · rw [fmErase]
      simp only [he, if_false]
      rw [fmRead, fmRead]
      by_cases hq : e.1 = q
      · simp [hq]
      · simp [hq, ih]

/-! ## Downloader: `beatcrafter_ai/downloader/scrape_and_download.py` -/

/-- `MAX_CONCURRENT_DOWNLOADS = 5` (scrape_and_download.py line 16). -/
def MAX_CONCURRENT_DOWNLOADS : Nat := 5

/-- Effects a download unit can perform besides progress reporting. -/
inductive DlEffect
  | fetchUrl
  | writeZip
deriving DecidableEq, Repr

/-- Environment of one download unit: the result of `client.get(download_url)`
followed by `raise_for_status()` (an `Except`), and whether `write_bytes`
raises after writing only part of the content (`some halfWritten`). -/
structure DownloadEnv where
  fetch : Except String Bytes
  halfWrite : Option Bytes

/-- `zip_path = self.download_path / f"{song_id}.zip"`. -/
def zipName (songId : String) : String := songId ++ ".zip"

/-- Embedding of `BeatSaverDownloader.download_map` (lines 38-70): skip and
report success when the destination zip already exists; otherwise fetch and
write under the semaphore; any exception is caught, a partial file at the
destination is unlinked, and `False` is returned. -/
def downloadMap (env : DownloadEnv) (fs : FileMap) (songId : String) :
    Bool × FileMap × List DlEffect :=
  let zipPath := zipName songId
  if (fmRead fs zipPath).isSome then
    (true, fs, [])
  else
    match env.fetch with
    | .error _ =>
        (false, if (fmRead fs zipPath).isSome then fmErase fs zipPath else fs,
          [DlEffect.fetchUrl])
    | .ok content =>
        match env.halfWrite with
        | some halfWritten =>
            let fs1 := fmWrite fs zipPath halfWritten
            (false, if (fmRead fs1 zipPath).isSome then fmErase fs1 zipPath else fs1,
              [DlEffect.fetchUrl, DlEffect.writeZip])
        | none =>
            (true, fmWrite fs zipPath content, [DlEffect.fetchUrl, DlEffect.writeZip])

/-- The outcome of one download unit as a function of its own environment and
of the prior contents of its own destination path only. -/
def downloadOutcome (env : DownloadEnv) (existing : Option Bytes) : Bool :=
  if existing.isSome then true
  else
    match env.fetch with
    | .error _ => false
    | .ok _ => env.halfWrite.isNone

/-- All download units of a run (`download_all` over all pages, flattened;
`asyncio.gather` collects one boolean per unit).  Units write to disjoint
destination paths, so this linearization is faithful whenever song ids are
distinct. -/
def downloadAllRun : List (String × DownloadEnv) → FileMap → List Bool × FileMap
  | [], fs => ([], fs)
  | (sid, env) :: rest, fs =>
      let r := downloadMap env fs sid
      let rr := downloadAllRun rest r.2.1
      (r.1 :: rr.1, rr.2)

theorem downloadMap_fst (env : DownloadEnv) (fs : FileMap) (sid : String) :
    (downloadMap env fs sid).1 = downloadOutcome env (fmRead fs (zipName sid)) := by
  unfold downloadMap downloadOutcome
  by_cases h : (fmRead fs (zipName sid)).isSome
  · simp [h]
  · simp only [h, if_false, Bool.false_eq_true]
    cases env.fetch with
    | error e => simp
    | ok c =>
      cases hw : env.halfWrite with
      | some b => simp [hw]
      | none => simp [hw]

theorem downloadMap_read_other (env : DownloadEnv) (fs : FileMap) (sid q : String)
    (h : q ≠ zipName sid) :
    fmRead (downloadMap env fs sid).2.1 q = fmRead fs q := by
  unfold downloadMap
  by_cases hs : (fmRead fs (zipName sid)).isSome
  · simp [hs]
  · simp only [hs, if_false, Bool.false_eq_true]
    cases env.fetch with
    | error e =>
      simp [hs]
    | ok c =>
      cases hw : env.halfWrite with
      | some b =>
        simp only [hw, fmRead_write_self, Option.isSome_some, if_true]
        rw [fmRead_erase_other _ _ _ h, fmRead_write_other _ _ _ _ h]
      | none =>
        simp only [hw]
        rw [fmRead_write_other _ _ _ _ h]

theorem downloadAllRun_length (units : List (String × DownloadEnv)) (fs : FileMap) :
    (downloadAllRun units fs).1.length = units.length := by
  induction units generalizing fs with
  | nil => rfl
  | cons u rest ih => simp [downloadAllRun, ih]

theorem downloadAllRun_read_other (units : List (String × DownloadEnv)) (fs : FileMap)
    (q : String) (h : ∀ u ∈ units, q ≠ zipName u.1) :
    fmRead (downloadAllRun units fs).2 q = fmRead fs q := by
  induction units generalizing fs with
  | nil => rfl
  | cons u rest ih =>
    rw [downloadAllRun]
    rw [ih _ (fun v hv => h v (List.mem_cons_of_mem u hv))]
    exact downloadMap_read_other _ _ _ _ (h u (List.mem_cons_self u rest))

theorem zipName_inj {a b : String} (h : zipName a = zipName b) : a = b := by
  have hd : a.data ++ ".zip".data = b.data ++ ".zip".data := by
    simpa [zipName] using congrArg String.data h
  have : a.data = b.data := by
    exact List.append_cancel_right hd
  cases a; cases b; exact congrArg String.mk this

theorem downloadAllRun_outcomes (units : List (String × DownloadEnv)) (fs : FileMap)
    (h : (units.map Prod.fst).Nodup) :
    (downloadAllRun units fs).1
      = units.map (fun u => downloadOutcome u.2 (fmRead fs (zipName u.1))) := by
  revert h
  induction units generalizing fs with
  | nil => intro _; rfl
  | cons u rest ih =>
    intro h
    rw [List.map_cons, List.nodup_cons] at h
    rw [downloadAllRun, List.map_cons]
    have hfst : (downloadMap u.2 fs u.1).1 = downloadOutcome u.2 (fmRead fs (zipName u.1)) :=
      downloadMap_fst _ _ _
    have hrest : (downloadAllRun rest (downloadMap u.2 fs u.1).2.1).1
        = rest.map (fun v => downloadOutcome v.2 (fmRead fs (zipName v.1))) := by
      rw [ih _ h.2]
      apply List.map_congr_left
      intro v hv
      have hne : zipName v.1 ≠ zipName u.1 := by
        intro he
        exact h.1 ((zipName_inj he) ▸ List.mem_map_of_mem Prod.fst hv)
      rw [downloadMap_read_other _ _ _ _ hne]
    simp [hfst, hrest]

/-! ## Converter: `ai_beat_saber/converter/convert_audio.py` -/

/-- Effects one conversion unit performs (beyond progress reporting). -/
inductive CvEffect
  | readHeader
  | runConversion
deriving DecidableEq, Repr

/-- `b'OggS'`. -/
def oggHeader : Bytes := [79, 103, 103, 83]

/-- `b'RIFF'`. -/
def riffHeader : Bytes := [82, 73, 70, 70]

/-- Environment of one conversion unit: whether the input audio file exists,
the result of reading its first four bytes, the result of the offloaded
`_convert_audio_to_midi_sync` call, and the MIDI bytes it writes on
success. -/
structure ConvEnv where
  inputExists : Bool
  header : Except String Bytes
  conversion : Except String Unit
  midiBytes : Bytes

/-- `output_path = self.output_dir / f"{song_folder}.mid"`. -/
def midiName (songFolder : String) : String := songFolder ++ ".mid"

/-- Embedding of `AudioConverter.convert_audio` (lines 72-109): check the
input exists, validate the four-byte header, then run the conversion under
the semaphore, writing the MIDI file at the destination.  There is no
destination-exists check: the conversion always runs and overwrites. -/
def convertAudio (env : ConvEnv) (midiFS : FileMap) (songFolder : String) :
    Except String String × FileMap × List CvEffect :=
  if !env.inputExists then
    (.error "Input file not found", midiFS, [])
  else
    match env.header with
    | .error _ =>
        (.error "Invalid audio file: Failed to read file header", midiFS,
          [CvEffect.readHeader])
    | .ok hdr =>
        if hdr = oggHeader ∨ hdr = riffHeader then
          match env.conversion with
          | .error e =>
              (.error ("Failed to convert audio file: " ++ e), midiFS,
                [CvEffect.readHeader, CvEffect.runConversion])
          | .ok _ =>
              (.ok (midiName songFolder),
                fmWrite midiFS (midiName songFolder) env.midiBytes,
                [CvEffect.readHeader, CvEffect.runConversion])
        else
          (.error "Invalid audio file format", midiFS, [CvEffect.readHeader])

/-- The outcome of a conversion unit depends only on its own environment,
never on the state of the output directory. -/
def convertOutcome (env : ConvEnv) (songFolder : String) : Except String String :=
  if !env.inputExists then .error "Input file not found"
  else
    match env.header with
    | .error _ => .error "Invalid audio file: Failed to read file header"
    | .ok hdr =>
        if hdr = oggHeader ∨ hdr = riffHeader then
          match env.conversion with
          | .error e => .error ("Failed to convert audio file: " ++ e)
          | .ok _ => .ok (midiName songFolder)
        else .error "Invalid audio file format"

/-- Embedding of `AudioConverter.convert_all` (lines 203-233): one task per
audio file; `await task` inside `try/except` appends either the returned
path or the caught exception, so every unit contributes exactly one
outcome. -/
def convertAllRun (envOf : String → ConvEnv) :
    List String → FileMap → List (Except String String) × FileMap
  | [], fs => ([], fs)
  | f :: rest, fs =>
      let r := convertAudio (envOf f) fs f
      let rr := convertAllRun envOf rest r.2.1
      (r.1 :: rr.1, rr.2)

theorem convertAudio_fst (env : ConvEnv) (fs : FileMap) (f : String) :
    (convertAudio env fs f).1 = convertOutcome env f := by
  unfold convertAudio convertOutcome
  cases hx : env.inputExists with
  | false => simp
  | true =>
    simp only [Bool.not_true, Bool.false_eq_true, if_false]
    cases env.header with
    | error e => simp
    | ok hdr =>
      by_cases hh : hdr = oggHeader ∨ hdr = riffHeader
      · simp only [hh, if_true]
        cases env.conversion with
        | error e => simp
        | ok u => simp
      · simp [hh]

theorem convertAllRun_outcomes (envOf : String → ConvEnv) (folders : List String)
    (fs : FileMap) :
    (convertAllRun envOf folders fs).1 = folders.map (fun f => convertOutcome (envOf f) f) := by
  induction folders generalizing fs with
  | nil => rfl
  | cons f rest ih =>
    rw [convertAllRun, List.map_cons]
    simp [convertAudio_fst, ih]

theorem convertAllRun_length (envOf : String → ConvEnv) (folders : List String)
    (fs : FileMap) :
    (convertAllRun envOf folders fs).1.length = folders.length := by
  rw [convertAllRun_outcomes]
  exact List.length_map folders _

/-! ## Bounded concurrency: the `asyncio.Semaphore` admission gate

Both stage runners guard the body of each WorkUnit with
`async with self.semaphore`: the downloader around fetch-and-write
(scrape_and_download.py lines 51-63, semaphore of `MAX_CONCURRENT_DOWNLOADS`
permits), the converter around the offloaded conversion (convert_audio.py
lines 104-107, semaphore of `max_concurrent` permits, default 5).  The
transition system below models the scheduler: each task is admitted only
when a permit is available, holds it while its unit body is in flight, and
returns it on exit. -/

/-- `AudioConverter.__init__`'s `max_concurrent` keyword defaults to 5. -/
def defaultMaxConcurrent : Nat := 5

inductive TaskPhase
  | waiting
  | running
  | finished
deriving DecidableEq, Repr

structure SemState where
  permits : Nat
  tasks : List TaskPhase
deriving DecidableEq, Repr

/-- One scheduler step: `acquire` admits a waiting task when a permit is
available (`async with sem:` entry suspends otherwise); `release` returns
the permit when the unit body finishes (normally or by exception). -/
inductive SemStep : SemState → SemState → Prop
  | acquire (p : Nat) (ts : List TaskPhase) (i : Nat)
      (hi : ts.get? i = some TaskPhase.waiting) :
      SemStep ⟨p + 1, ts⟩ ⟨p, ts.set i TaskPhase.running⟩
  | release (p : Nat) (ts : List TaskPhase) (i : Nat)
      (hi : ts.get? i = some TaskPhase.running) :
      SemStep ⟨p, ts⟩ ⟨p + 1, ts.set i TaskPhase.finished⟩

/-- `asyncio.Semaphore(k)` with `n` pending WorkUnit tasks. -/
def semInit (k n : Nat) : SemState :=
  ⟨k, List.replicate n TaskPhase.waiting⟩

inductive SemReachable (k : Nat) : SemState → Prop
  | init (n : Nat) : SemReachable k (semInit k n)
  | step {s s' : SemState} : SemReachable k s → SemStep s s' → SemReachable k s'

/-- Number of WorkUnits currently in flight: tasks holding the semaphore. -/
def inFlight (s : SemState) : Nat := s.tasks.count TaskPhase.running

theorem count_set_of_get? {α : Type} [DecidableEq α] (l : List α) (i : Nat)
    (a v w : α) (hi : l.get? i = some a) :
    (l.set i v).count w + (if a = w then 1 else 0)
      = l.count w + (if v = w then 1 else 0) := by
  induction l generalizing i with
  | nil => simp at hi
  | cons x xs ih =>
    cases i with
    | zero =>
      simp only [List.get?] at hi
      cases hi
      simp only [List.set, List.count_cons]
      rcases eq_or_ne a w with h1 | h1 <;> rcases eq_or_ne v w with h2 | h2 <;>
        simp [h1, h2]
    | succ j =>
      simp only [List.get?] at hi
      simp only [List.set, List.count_cons]
      have := ih j hi
      rcases eq_or_ne x w with h1 | h1 <;> simp [h1] <;> omega

theorem semStep_invariant {s s' : SemState} (h : SemStep s s')
    (hs : inFlight s + s.permits = k) : inFlight s' + s'.permits = k := by
  cases h with
  | acquire p ts i hi =>
    have hc := count_set_of_get? ts i TaskPhase.waiting TaskPhase.running
      TaskPhase.running hi
    simp only [inFlight] at hs ⊢
    simp at hc
    omega
  | release p ts i hi =>
    have hc := count_set_of_get? ts i TaskPhase.running TaskPhase.finished
      TaskPhase.running hi
    simp only [inFlight] at hs ⊢
    simp at hc
    omega

theorem semReachable_invariant {k : Nat} {s : SemState} (h : SemReachable k s) :
    inFlight s + s.permits = k := by
  induction h with
  | init n =>
    simp only [inFlight, semInit]
    rw [List.count_replicate]
    simp
  | step _ hstep ih => exact semStep_invariant hstep ih

/-! ## Pruner output serialization: `ai_beat_saber/post_processor/prune_maps.py`

`MapPruner.process_all` (lines 142-177) writes each pruned record as
`json.dumps(pruned_data, separators=(',', ':'), ensure_ascii=False)`
followed by `''.join(json_str.split())` and a binary write of the UTF-8
encoding.  `JVal` is the JSON value domain, `jsonDumps` the compact
serializer (with `json.dumps`'s escaping of quotes, backslashes and
control characters), and `stripAllWhitespace` the split/join step, which
deletes every whitespace character wherever it occurs. -/

mutual
inductive JVal
  | null
  | bool (b : Bool)
  | num (n : Int)
  | str (s : String)
  | arr (xs : JArr)
  | obj (fs : JObj)
inductive JArr
  | nil
  | cons (v : JVal) (rest : JArr)
inductive JObj
  | nil
  | cons (k : String) (v : JVal) (rest : JObj)
end

def hexDigit (n : Nat) : Char :=
  if n < 10 then Char.ofNat (48 + n) else Char.ofNat (87 + n)

/-- How `json.dumps` renders one character inside a string literal:
quote and backslash escaped, control characters below 0x20 escaped
(`\n`, `\t`, `\r`, `\b`, `\f`, else `\u00XX`), everything else kept
verbatim (`ensure_ascii=False`). -/
def escapeChar (c : Char) : List Char :=
  if c = '"' then ['\\', '"']
  else if c = '\\' then ['\\', '\\']
  else if c = '\n' then ['\\', 'n']
  else if c = '\t' then ['\\', 't']
  else if c = '\r' then ['\\', 'r']
  else if c.toNat = 8 then ['\\', 'b']
  else if c.toNat = 12 then ['\\', 'f']
  else if c.toNat < 32 then ['\\', 'u', '0', '0', hexDigit (c.toNat / 16), hexDigit (c.toNat % 16)]
  else [c]

def jsonQuote (s : String) : String :=
  String.mk ('"' :: s.data.flatMap escapeChar ++ ['"'])

mutual
/-- `json.dumps(v, separators=(',', ':'), ensure_ascii=False)`. -/
def jsonDumps : JVal → String
  | .null => "null"
  | .bool true => "true"
  | .bool false => "false"
  | .num n => toString n
  | .str s => jsonQuote s
  | .arr xs => "[" ++ jsonDumpsArr xs ++ "]"
  | .obj fs => "\x7b" ++ jsonDumpsObj fs ++ "\x7d"
def jsonDumpsArr : JArr → String
  | .nil => ""
  | .cons v .nil => jsonDumps v
  | .cons v (.cons w rest) => jsonDumps v ++ "," ++ jsonDumpsArr (.cons w rest)
def jsonDumpsObj : JObj → String
  | .nil => ""
  | .cons k v .nil => jsonQuote k ++ ":" ++ jsonDumps v
  | .cons k v (.cons k2 w rest) =>
      jsonQuote k ++ ":" ++ jsonDumps v ++ "," ++ jsonDumpsObj (.cons k2 w rest)
end

/-- The code points Python's `str.split()` treats as whitespace. -/
def pySpaceCodes : List Nat :=
  [9, 10, 11, 12, 13, 28, 29, 30, 31, 32, 133, 160, 5760,
   8192, 8193, 8194, 8195, 8196, 8197, 8198, 8199, 8200, 8201, 8202,
   8232, 8233, 8239, 8287, 12288]

def isPySpace (c : Char) : Bool := pySpaceCodes.contains c.toNat

/-- `''.join(json_str.split())`: splitting on whitespace runs and
concatenating the pieces deletes exactly the whitespace characters. -/
def stripAllWhitespace (s : String) : String :=
  String.mk (s.data.filter (fun c => !isPySpace c))

/-- Lines 163-174 of prune_maps.py: serialize compactly, strip every
remaining whitespace character, and write the UTF-8 bytes of the result. -/
def writePrunedFile (prunedData : JVal) : String :=
  stripAllWhitespace (jsonDumps prunedData)

/-! ## The pipeline: `beatcrafter_ai/run_pipeline.py`

`runPipeline` embeds `run_pipeline` (lines 31-241): directory setup, loading
the checkpoint (`{}` under `--force`), and the six steps Download, Extract,
Convert, Combine, Format, Prune in order.  The optional Generate step prints
a stub and performs no state change, so it is omitted.  The per-stage
external work (HTTP, archive decoding, audio analysis, formatting, pruning)
comes from a `PipelineEnv` of opaque functions, mirroring how the code
treats those calls.  Each stage leaves a `StageTrace` recording whether its
output directory was reset, whether the stage body was entered, how many
WorkUnits it performed, and which checkpoint contents it persisted. -/

inductive StageName
  | download
  | extract
  | convert
  | combine
  | format
  | prune
deriving DecidableEq, Repr

/-- The keys `run_pipeline` reads from `pipeline_checkpoint.json`; a missing
key is falsy, so the loaded dictionary is a record of five booleans. -/
structure Checkpoint where
  downloads_complete : Bool
  extraction_complete : Bool
  conversion_complete : Bool
  formatting_complete : Bool
  pruning_complete : Bool
deriving DecidableEq, Repr

/-- `load_checkpoint` of a missing file, and `checkpoint = {}` under force. -/
def emptyCheckpoint : Checkpoint := ⟨false, false, false, false, false⟩

def ckFlag (c : Checkpoint) : StageName → Bool
  | .download => c.downloads_complete
  | .extract => c.extraction_complete
  | .convert => c.conversion_complete
  | .combine => false
  | .format => c.formatting_complete
  | .prune => c.pruning_complete

def setFlag (c : Checkpoint) : StageName → Checkpoint
  | .download => { c with downloads_complete := true }
  | .extract => { c with extraction_complete := true }
  | .convert => { c with conversion_complete := true }
  | .combine => c
  | .format => { c with formatting_complete := true }
  | .prune => { c with pruning_complete := true }

/-- The Combine step has no checkpoint key; every other step does. -/
def isCheckpointed : StageName → Bool
  | .combine => false
  | _ => true

/-- One `combined/<song_id>` directory: the copy of the extracted song
directory plus `midi_output/<song_id>.mid` when `midi/<song_id>.mid`
existed at combine time. -/
structure CombinedSong where
  files : FileMap
  midiOut : Option Bytes
deriving DecidableEq, Repr

/-- One `extract_map` result: the extracted directory and the error flag
(`has_errors` results are written to disk but dropped from the returned
list). -/
structure ExtractUnit where
  songId : String
  files : FileMap
  hasErrors : Bool

/-- The record written to `output/logs/conversion_results.json`. -/
structure ConvLogRec where
  total_attempted : Nat
  successful : Nat
  failed : Nat
  successful_files : List String
  errors : List String
deriving DecidableEq, Repr

/-- Contents of a file in the `output/logs` directory. -/
inductive LogFile
  | extraction (total_extracted : Nat) (maps : List String)
  | conversion (logRec : ConvLogRec)
deriving DecidableEq, Repr

def extractionLogName : String := "extraction_results.json"

def conversionLogName : String := "conversion_results.json"

def logRead : List (String × LogFile) → String → Option LogFile
  | [], _ => none
  | (q, l) :: rest, p => if q = p then some l else logRead rest p

def logWrite (logs : List (String × LogFile)) (n : String) (l : LogFile) :
    List (String × LogFile) :=
  (n, l) :: logs

/-- The on-disk state the pipeline owns: the staged directories, the log
directory and the checkpoint file. -/
structure PState where
  downloads : FileMap
  extracted : List (String × FileMap)
  midi : FileMap
  combined : List (String × CombinedSong)
  formatted : FileMap
  pruned : FileMap
  logs : List (String × LogFile)
  ckFile : Option Checkpoint
deriving DecidableEq, Repr

/-- CLI arguments threaded through `run_pipeline`. -/
structure Args where
  pages : Nat
  force : Bool
  difficulty : String
  generate : Bool
deriving DecidableEq, Repr

/-- External collaborators, one field per opaque capability call. -/
structure PipelineEnv where
  dlUnits : List (String × DownloadEnv)
  extractOut : FileMap → List ExtractUnit
  audioFolders : List (String × FileMap) → List String
  convEnvOf : String → ConvEnv
  formatOut : List (String × CombinedSong) → Except String FileMap
  pruneOut : FileMap → String → FileMap

structure StageTrace where
  didReset : Bool
  body : Bool
  unitsAttempted : Nat
  savedCk : Option Checkpoint
deriving DecidableEq, Repr

inductive PError
  | missingExtractionLog
  | missingConversionLog
  | formattingError (msg : String)
deriving DecidableEq, Repr

structure RunResult where
  state : PState
  traces : List (StageName × StageTrace)
  aborted : Option PError
deriving DecidableEq, Repr

/-- Lines 49-51: `checkpoint = {} if args.force else load_checkpoint(...)`,
where `load_checkpoint` returns `{}` when the file does not exist. -/
def loadCheckpoint (args : Args) (s : PState) : Checkpoint :=
  if args.force then emptyCheckpoint else s.ckFile.getD emptyCheckpoint

def skipTrace : StageTrace := ⟨false, false, 0, none⟩

/-- Lines 67-80: the Download step. -/
def downloadStage (env : PipelineEnv) (args : Args) (s : PState) (ck : Checkpoint) :
    PState × Checkpoint × StageTrace :=
  if !ckFlag ck .download || args.force then
    let dl0 := if args.force then [] else s.downloads
    let r := downloadAllRun env.dlUnits dl0
    let ck1 := setFlag ck .download
    ({ s with downloads := r.2, ckFile := some ck1 }, ck1,
      ⟨args.force, true, r.1.length, some ck1⟩)
  else
    (s, ck, skipTrace)

/-- `extract_all`: each zip's directory replaces any previous
`extracted/<song_id>`; unrelated previous directories survive. -/
def mergeExtract (old : List (String × FileMap)) (fresh : List ExtractUnit) :
    List (String × FileMap) :=
  old.filter (fun p => !(fresh.map ExtractUnit.songId).contains p.1)
    ++ fresh.map (fun u => (u.songId, u.files))

/-- Lines 82-106: the Extract step.  The skip branch re-reads the extraction
log; a missing log raises out of the run. -/
def extractStage (env : PipelineEnv) (args : Args) (s : PState) (ck : Checkpoint) :
    Except (PError × PState) (PState × Checkpoint × StageTrace) :=
  if !ckFlag ck .extract || args.force then
    let ex0 := if args.force then [] else s.extracted
    let fresh := env.extractOut s.downloads
    let maps := (fresh.filter (fun u => !u.hasErrors)).map ExtractUnit.songId
    let logs1 := logWrite s.logs extractionLogName (.extraction maps.length maps)
    let ck1 := setFlag ck .extract
    .ok ({ s with extracted := mergeExtract ex0 fresh, logs := logs1, ckFile := some ck1 },
      ck1, ⟨args.force, true, fresh.length, some ck1⟩)
  else
    match logRead s.logs extractionLogName with
    | none => .error (.missingExtractionLog, s)
    | some _ => .ok (s, ck, skipTrace)

/-- Lines 108-170: the Convert step.  Results are partitioned into paths and
exceptions; the counts are logged; the checkpoint commits regardless of the
failure count.  The skip branch re-reads the conversion log. -/
def convertStage (env : PipelineEnv) (args : Args) (s : PState) (ck : Checkpoint) :
    Except (PError × PState) (PState × Checkpoint × StageTrace) :=
  if !ckFlag ck .convert || args.force then
    let midi0 := if args.force then [] else s.midi
    let folders := env.audioFolders s.extracted
    let r := convertAllRun env.convEnvOf folders midi0
    let succ := r.1.filterMap (fun o => match o with | .ok p => some p | .error _ => none)
    let errs := r.1.filterMap (fun o => match o with | .ok _ => none | .error e => some e)
    let logRec : ConvLogRec :=
      ⟨succ.length + errs.length, succ.length, errs.length, succ, errs⟩
    let logs1 := logWrite s.logs conversionLogName (.conversion logRec)
    let ck1 := setFlag ck .convert
    .ok ({ s with midi := r.2, logs := logs1, ckFile := some ck1 },
      ck1, ⟨args.force, true, folders.length, some ck1⟩)
  else
    match logRead s.logs conversionLogName with
    | none => .error (.missingConversionLog, s)
    | some _ => .ok (s, ck, skipTrace)

/-- Lines 180-191: one combined entry per extracted song directory; the MIDI
file is copied exactly when `midi/<song_id>.mid` exists. -/
def combineBuild (extracted : List (String × FileMap)) (midi : FileMap) :
    List (String × CombinedSong) :=
  extracted.map (fun p => (p.1, ⟨p.2, fmRead midi (midiName p.1)⟩))

/-- Lines 172-191: the Combine step: unconditionally `rmtree` the combined
directory and rebuild it from the current extracted and midi directories. -/
def combineStage (s : PState) : PState × StageTrace :=
  ({ s with combined := combineBuild s.extracted s.midi },
    ⟨true, true, s.extracted.length, none⟩)

/-- Lines 193-216: the Format step; `format_all` failures re-raise and abort
the run without a checkpoint commit. -/
def formatStage (env : PipelineEnv) (args : Args) (s : PState) (ck : Checkpoint) :
    Except (PError × PState) (PState × Checkpoint × StageTrace) :=
  if !ckFlag ck .format || args.force then
    let f0 := if args.force then [] else s.formatted
    match env.formatOut s.combined with
    | .error e => .error (.formattingError e, { s with formatted := f0 })
    | .ok fresh =>
        let ck1 := setFlag ck .format
        .ok ({ s with formatted := fresh ++ f0, ckFile := some ck1 },
          ck1, ⟨args.force, true, 1, some ck1⟩)
  else
    .ok (s, ck, skipTrace)

/-- Lines 218-232: the Prune step; `process_all` catches per-file errors. -/
def pruneStage (env : PipelineEnv) (args : Args) (s : PState) (ck : Checkpoint) :
    PState × Checkpoint × StageTrace :=
  if !ckFlag ck .prune || args.force then
    let p0 := if args.force then [] else s.pruned
    let fresh := env.pruneOut s.formatted args.difficulty
    let ck1 := setFlag ck .prune
    ({ s with pruned := fresh ++ p0, ckFile := some ck1 },
      ck1, ⟨args.force, true, fresh.length, some ck1⟩)
  else
    (s, ck, skipTrace)

/-- `run_pipeline` end to end. -/
def runPipeline (args : Args) (env : PipelineEnv) (s0 : PState) : RunResult :=
  let ck0 := loadCheckpoint args s0
  let d := downloadStage env args s0 ck0
  let tD := [(StageName.download, d.2.2)]
  match extractStage env args d.1 d.2.1 with
  | .error (e, sE) => ⟨sE, tD, some e⟩
  | .ok x =>
    let tX := tD ++ [(StageName.extract, x.2.2)]
    match convertStage env args x.1 x.2.1 with
    | .error (e, sC) => ⟨sC, tX, some e⟩
    | .ok c =>
      let tC := tX ++ [(StageName.convert, c.2.2)]
      let cb := combineStage c.1
      let tB := tC ++ [(StageName.combine, cb.2)]
      match formatStage env args cb.1 c.2.1 with
      | .error (e, sF) => ⟨sF, tB, some e⟩
      | .ok f =>
        let tF := tB ++ [(StageName.format, f.2.2)]
        let p := pruneStage env args f.1 f.2.1
        ⟨p.1, tF ++ [(StageName.prune, p.2.2)], none⟩

/-! ### Stage-level lemmas -/

theorem ckFlag_setFlag_mono {c : Checkpoint} {S : StageName} (T : StageName)
    (h : ckFlag c S = true) : ckFlag (setFlag c T) S = true := by
  cases S <;> cases T <;> simp_all [ckFlag, setFlag]

theorem ckFlag_setFlag_other {S T : StageName} (c : Checkpoint) (h : S ≠ T) :
    ckFlag (setFlag c T) S = ckFlag c S := by
  cases S <;> cases T <;> simp_all [ckFlag, setFlag]

theorem ckFlag_setFlag_self (c : Checkpoint) (S : StageName) (h : isCheckpointed S = true) :
    ckFlag (setFlag c S) S = true := by
  cases S <;> simp_all [ckFlag, setFlag, isCheckpointed]

theorem downloadStage_skip (env : PipelineEnv) (args : Args) (s : PState) (ck : Checkpoint)
    (hf : args.force = false) (hk : ckFlag ck .download = true) :
    downloadStage env args s ck = (s, ck, skipTrace) := by
  unfold downloadStage
  simp [hf, hk]

theorem downloadStage_body (env : PipelineEnv) (args : Args) (s : PState) (ck : Checkpoint)
    (h : (!ckFlag ck .download || args.force) = true) :
    downloadStage env args s ck
      = ({ s with
            downloads := (downloadAllRun env.dlUnits (if args.force then [] else s.downloads)).2,
            ckFile := some (setFlag ck .download) },
          setFlag ck .download,
          ⟨args.force, true,
            (downloadAllRun env.dlUnits (if args.force then [] else s.downloads)).1.length,
            some (setFlag ck .download)⟩) := by
  unfold downloadStage
  simp [h]

theorem downloadStage_frame (env : PipelineEnv) (args : Args) (s : PState) (ck : Checkpoint) :
    (downloadStage env args s ck).1.extracted = s.extracted
    ∧ (downloadStage env args s ck).1.midi = s.midi
    ∧ (downloadStage env args s ck).1.combined = s.combined
    ∧ (downloadStage env args s ck).1.formatted = s.formatted
    ∧ (downloadStage env args s ck).1.pruned = s.pruned
    ∧ (downloadStage env args s ck).1.logs = s.logs := by
  unfold downloadStage
  by_cases h : (!ckFlag ck .download || args.force) = true <;> simp [h, skipTrace]

theorem downloadStage_ckMono (env : PipelineEnv) (args : Args) (s : PState) (ck : Checkpoint)
    {S : StageName} (h : ckFlag ck S = true) :
    ckFlag (downloadStage env args s ck).2.1 S = true := by
  unfold downloadStage
  by_cases hc : (!ckFlag ck .download || args.force) = true <;>
    simp [hc, ckFlag_setFlag_mono _ h, h]

theorem extractStage_skip (env : PipelineEnv) (args : Args) (s : PState) (ck : Checkpoint)
    (hf : args.force = false) (hk : ckFlag ck .extract = true) :
    extractStage env args s ck = .ok (s, ck, skipTrace)
    ∨ extractStage env args s ck = .error (.missingExtractionLog, s) := by
  unfold extractStage
  simp only [hf, hk, Bool.not_true, Bool.or_false, Bool.false_eq_true, if_false]
  cases logRead s.logs extractionLogName with
  | none => right; rfl
  | some l => left; rfl

theorem extractStage_body (env : PipelineEnv) (args : Args) (s : PState) (ck : Checkpoint)
    (h : (!ckFlag ck .extract || args.force) = true) :
    extractStage env args s ck
      = .ok ({ s with
            extracted := mergeExtract (if args.force then [] else s.extracted)
              (env.extractOut s.downloads),
            logs := logWrite s.logs extractionLogName
              (.extraction (((env.extractOut s.downloads).filter
                  (fun u => !u.hasErrors)).map ExtractUnit.songId).length
                (((env.extractOut s.downloads).filter
                  (fun u => !u.hasErrors)).map ExtractUnit.songId)),
            ckFile := some (setFlag ck .extract) },
          setFlag ck .extract,
          ⟨args.force, true, (env.extractOut s.downloads).length,
            some (setFlag ck .extract)⟩) := by
  unfold extractStage
  simp [h]

theorem extractStage_error (env : PipelineEnv) (args : Args) (s : PState) (ck : Checkpoint)
    {e : PError} {sE : PState} (h : extractStage env args s ck = .error (e, sE)) : sE = s := by
  unfold extractStage at h
  by_cases hc : (!ckFlag ck .extract || args.force) = true
  · simp [hc] at h
  · simp only [hc, if_false] at h
    cases hl : logRead s.logs extractionLogName with
    | none =>
      rw [hl] at h
      cases h
      rfl
    | some l =>
      rw [hl] at h
      cases h

theorem extractStage_ok_frame (env : PipelineEnv) (args : Args) (s : PState) (ck : Checkpoint)
    {x : PState × Checkpoint × StageTrace} (h : extractStage env args s ck = .ok x) :
    x.1.downloads = s.downloads ∧ x.1.midi = s.midi ∧ x.1.combined = s.combined
    ∧ x.1.formatted = s.formatted ∧ x.1.pruned = s.pruned := by
  unfold extractStage at h
  by_cases hc : (!ckFlag ck .extract || args.force) = true
  · simp only [hc, if_true] at h
    cases h
    simp
  · simp only [hc, if_false] at h
    cases hl : logRead s.logs extractionLogName with
    | none => rw [hl] at h; cases h
    | some l => rw [hl] at h; cases h; simp

theorem extractStage_ok_ck (env : PipelineEnv) (args : Args) (s : PState) (ck : Checkpoint)
    {x : PState × Checkpoint × StageTrace} (h : extractStage env args s ck = .ok x) :
    x.2.1 = setFlag ck .extract ∨ x.2.1 = ck := by
  unfold extractStage at h
  by_cases hc : (!ckFlag ck .extract || args.force) = true
  · simp only [hc, if_true] at h
    cases h
    left; rfl
  · simp only [hc, if_false] at h
    cases hl : logRead s.logs extractionLogName with
    | none => rw [hl] at h; cases h
    | some l => rw [hl] at h; cases h; right; rfl

theorem extractStage_ckMono (env : PipelineEnv) (args : Args) (s : PState) (ck : Checkpoint)
    {x : PState × Checkpoint × StageTrace} (h : extractStage env args s ck = .ok x)
    {S : StageName} (hs : ckFlag ck S = true) : ckFlag x.2.1 S = true := by
  rcases extractStage_ok_ck env args s ck h with h1 | h1 <;> rw [h1]
  · exact ckFlag_setFlag_mono _ hs
  · exact hs

theorem convertStage_skip (env : PipelineEnv) (args : Args) (s : PState) (ck : Checkpoint)
    (hf : args.force = false) (hk : ckFlag ck .convert = true) :
    convertStage env args s ck = .ok (s, ck, skipTrace)
    ∨ convertStage env args s ck = .error (.missingConversionLog, s) := by
  unfold convertStage
  simp only [hf, hk, Bool.not_true, Bool.or_false, Bool.false_eq_true, if_false]
  cases logRead s.logs conversionLogName with
  | none => right; rfl
  | some l => left; rfl

theorem convertStage_body (env : PipelineEnv) (args : Args) (s : PState) (ck : Checkpoint)
    (h : (!ckFlag ck .convert || args.force) = true) :
    convertStage env args s ck
      = .ok ({ s with
            midi := (convertAllRun env.convEnvOf (env.audioFolders s.extracted)
              (if args.force then [] else s.midi)).2,
            logs := logWrite s.logs conversionLogName (.conversion
              ⟨((convertAllRun env.convEnvOf (env.audioFolders s.extracted)
                  (if args.force then [] else s.midi)).1.filterMap
                  (fun o => match o with | .ok p => some p | .error _ => none)).length
                + ((convertAllRun env.convEnvOf (env.audioFolders s.extracted)
                  (if args.force then [] else s.midi)).1.filterMap
                  (fun o => match o with | .ok _ => none | .error e => some e)).length,
                ((convertAllRun env.convEnvOf (env.audioFolders s.extracted)
                  (if args.force then [] else s.midi)).1.filterMap
                  (fun o => match o with | .ok p => some p | .error _ => none)).length,
                ((convertAllRun env.convEnvOf (env.audioFolders s.extracted)
                  (if args.force then [] else s.midi)).1.filterMap
                  (fun o => match o with | .ok _ => none | .error e => some e)).length,
                (convertAllRun env.convEnvOf (env.audioFolders s.extracted)
                  (if args.force then [] else s.midi)).1.filterMap
                  (fun o => match o with | .ok p => some p | .error _ => none),
                (convertAllRun env.convEnvOf (env.audioFolders s.extracted)
                  (if args.force then [] else s.midi)).1.filterMap
                  (fun o => match o with | .ok _ => none | .error e => some e)⟩),
            ckFile := some (setFlag ck .convert) },
          setFlag ck .convert,
          ⟨args.force, true, (env.audioFolders s.extracted).length,
            some (setFlag ck .convert)⟩) := by
  unfold convertStage
  simp [h]

theorem convertStage_error (env : PipelineEnv) (args : Args) (s : PState) (ck : Checkpoint)
    {e : PError} {sE : PState} (h : convertStage env args s ck = .error (e, sE)) : sE = s := by
  unfold convertStage at h
  by_cases hc : (!ckFlag ck .convert || args.force) = true
  · simp [hc] at h
  · simp only [hc, if_false] at h
    cases hl : logRead s.logs conversionLogName with
    | none => rw [hl] at h; cases h; rfl
    | some l => rw [hl] at h; cases h

theorem convertStage_ok_frame (env : PipelineEnv) (args : Args) (s : PState) (ck : Checkpoint)
    {x : PState × Checkpoint × StageTrace} (h : convertStage env args s ck = .ok x) :
    x.1.downloads = s.downloads ∧ x.1.extracted = s.extracted ∧ x.1.combined = s.combined
    ∧ x.1.formatted = s.formatted ∧ x.1.pruned = s.pruned := by
  unfold convertStage at h
  by_cases hc : (!ckFlag ck .convert || args.force) = true
  · simp only [hc, if_true] at h
    cases h
    simp
  · simp only [hc, if_false] at h
    cases hl : logRead s.logs conversionLogName with
    | none => rw [hl] at h; cases h
    | some l => rw [hl] at h; cases h; simp

theorem convertStage_ok_ck (env : PipelineEnv) (args : Args) (s : PState) (ck : Checkpoint)
    {x : PState × Checkpoint × StageTrace} (h : convertStage env args s ck = .ok x) :
    x.2.1 = setFlag ck .convert ∨ x.2.1 = ck := by
  unfold convertStage at h
  by_cases hc : (!ckFlag ck .convert || args.force) = true
  · simp only [hc, if_true] at h
    cases h
    left; rfl
  · simp only [hc, if_false] at h
    cases hl : logRead s.logs conversionLogName with
    | none => rw [hl] at h; cases h
    | some l => rw [hl] at h; cases h; right; rfl

theorem convertStage_ckMono (env : PipelineEnv) (args : Args) (s : PState) (ck : Checkpoint)
    {x : PState × Checkpoint × StageTrace} (h : convertStage env args s ck = .ok x)
    {S : StageName} (hs : ckFlag ck S = true) : ckFlag x.2.1 S = true := by
  rcases convertStage_ok_ck env args s ck h with h1 | h1 <;> rw [h1]
  · exact ckFlag_setFlag_mono _ hs
  · exact hs

theorem combineStage_frame (s : PState) :
    (combineStage s).1.downloads = s.downloads
    ∧ (combineStage s).1.extracted = s.extracted
    ∧ (combineStage s).1.midi = s.midi
    ∧ (combineStage s).1.formatted = s.formatted
    ∧ (combineStage s).1.pruned = s.pruned
    ∧ (combineStage s).1.logs = s.logs
    ∧ (combineStage s).1.ckFile = s.ckFile := by
  unfold combineStage
  simp

theorem formatStage_skip (env : PipelineEnv) (args : Args) (s : PState) (ck : Checkpoint)
    (hf : args.force = false) (hk : ckFlag ck .format = true) :
    formatStage env args s ck = .ok (s, ck, skipTrace) := by
  unfold formatStage
  simp [hf, hk]

theorem formatStage_error (env : PipelineEnv) (args : Args) (s : PState) (ck : Checkpoint)
    {e : PError} {sE : PState} (h : formatStage env args s ck = .error (e, sE)) :
    sE = { s with formatted := if args.force then [] else s.formatted } := by
  unfold formatStage at h
  by_cases hc : (!ckFlag ck .format || args.force) = true
  · simp only [hc, if_true] at h
    cases hm : env.formatOut s.combined with
    | error e =>
      rw [hm] at h
      cases h
      rfl
    | ok fresh => rw [hm] at h; cases h
  · simp [hc] at h

theorem formatStage_ok_frame (env : PipelineEnv) (args : Args) (s : PState) (ck : Checkpoint)
    {x : PState × Checkpoint × StageTrace} (h : formatStage env args s ck = .ok x) :
    x.1.downloads = s.downloads ∧ x.1.extracted = s.extracted ∧ x.1.midi = s.midi
    ∧ x.1.combined = s.combined ∧ x.1.pruned = s.pruned ∧ x.1.logs = s.logs := by
  unfold formatStage at h
  by_cases hc : (!ckFlag ck .format || args.force) = true
  · simp only [hc, if_true] at h
    cases hm : env.formatOut s.combined with
    | error e => rw [hm] at h; cases h
    | ok fresh => rw [hm] at h; cases h; simp
  · simp only [hc, if_false] at h
    cases h
    simp

theorem formatStage_ok_ck (env : PipelineEnv) (args : Args) (s : PState) (ck : Checkpoint)
    {x : PState × Checkpoint × StageTrace} (h : formatStage env args s ck = .ok x) :
    x.2.1 = setFlag ck .format ∨ x.2.1 = ck := by
  unfold formatStage at h
  by_cases hc : (!ckFlag ck .format || args.force) = true
  · simp only [hc, if_true] at h
    cases hm : env.formatOut s.combined with
    | error e => rw [hm] at h; cases h
    | ok fresh => rw [hm] at h; cases h; left; rfl
  · simp only [hc, if_false] at h
    cases h
    right; rfl

theorem formatStage_ckMono (env : PipelineEnv) (args : Args) (s : PState) (ck : Checkpoint)
    {x : PState × Checkpoint × StageTrace} (h : formatStage env args s ck = .ok x)
    {S : StageName} (hs : ckFlag ck S = true) : ckFlag x.2.1 S = true := by
  rcases formatStage_ok_ck env args s ck h with h1 | h1 <;> rw [h1]
  · exact ckFlag_setFlag_mono _ hs
  · exact hs

theorem pruneStage_skip (env : PipelineEnv) (args : Args) (s : PState) (ck : Checkpoint)
    (hf : args.force = false) (hk : ckFlag ck .prune = true) :
    pruneStage env args s ck = (s, ck, skipTrace) := by
  unfold pruneStage
  simp [hf, hk]

theorem pruneStage_frame (env : PipelineEnv) (args : Args) (s : PState) (ck : Checkpoint) :
    (pruneStage env args s ck).1.downloads = s.downloads
    ∧ (pruneStage env args s ck).1.extracted = s.extracted
    ∧ (pruneStage env args s ck).1.midi = s.midi
    ∧ (pruneStage env args s ck).1.combined = s.combined
    ∧ (pruneStage env args s ck).1.formatted = s.formatted
    ∧ (pruneStage env args s ck).1.logs = s.logs := by
  unfold pruneStage
  by_cases h : (!ckFlag ck .prune || args.force) = true <;> simp [h, skipTrace]

/-! ## Claim theorems -/

/-- C1: within a stage, a failing worker's exception is captured as a
failure outcome in that unit's own result (a `.error` / `false` value in
the outcome list), never raises out of the stage, and neither cancels nor
blocks sibling units: every unit contributes exactly one outcome, and each
unit's outcome is a function of that unit's own environment alone
(conversions), or of its own environment and the prior contents of its own
destination path (downloads with distinct song ids). -/
theorem c1_failure_isolation :
    (∀ (envOf : String → ConvEnv) (folders : List String) (fs : FileMap),
        (convertAllRun envOf folders fs).1
          = folders.map (fun f => convertOutcome (envOf f) f))
    ∧ (∀ (units : List (String × DownloadEnv)) (fs : FileMap),
        (downloadAllRun units fs).1.length = units.length)
    ∧ (∀ (units : List (String × DownloadEnv)) (fs : FileMap),
        (units.map Prod.fst).Nodup →
        (downloadAllRun units fs).1
          = units.map (fun u => downloadOutcome u.2 (fmRead fs (zipName u.1)))) :=
  ⟨convertAllRun_outcomes, downloadAllRun_length, downloadAllRun_outcomes⟩

/-- Witness for C1 at concrete inputs: one failing conversion beside a
succeeding one, and one failing download beside a succeeding one. -/
theorem c1_failure_isolation_witness :
    (convertAllRun (fun _ => ⟨false, .error "io", .error "io", []⟩) ["a", "b"] []).1
      = [.error "Input file not found", .error "Input file not found"]
    ∧ (downloadAllRun [("a", ⟨.error "HTTP 404", none⟩), ("b", ⟨.ok [1], none⟩)] []).1
      = [false, true] := by
  constructor
  · rw [c1_failure_isolation.1]
    rfl
  · rw [c1_failure_isolation.2.2 _ _ (by decide)]
    rfl

/-- C9: when a download unit fails for any reason (failed fetch or a write
that raised after a partial write), `download_map` unlinks whatever is at
the destination and returns a failure outcome, so no file remains at the
unit's destination path. -/
theorem c9_failed_download_leaves_no_file (env : DownloadEnv) (fs : FileMap) (sid : String)
    (h : (downloadMap env fs sid).1 = false) :
    fmRead (downloadMap env fs sid).2.1 (zipName sid) = none := by
  unfold downloadMap at h ⊢
  by_cases hs : (fmRead fs (zipName sid)).isSome
  · simp [hs] at h
  · simp only [hs, if_false, Bool.false_eq_true] at h ⊢
    cases hf : env.fetch with
    | error e =>
      simp only [hf, hs, if_false]
      exact Option.not_isSome_iff_eq_none.mp hs
    | ok c =>
      cases hw : env.halfWrite with
      | some b =>
        simp only [hf, hw, fmRead_write_self, Option.isSome_some, if_true]
        exact fmRead_erase_self _ _
      | none => simp [hf, hw] at h

/-- Witness for C9: a fetch that raises, and a write that raises after
writing half the content, both leave no file at the destination. -/
theorem c9_failed_download_leaves_no_file_witness :
    fmRead (downloadMap ⟨Except.error "HTTP 500", none⟩ [] "abc").2.1 (zipName "abc") = none
    ∧ fmRead (downloadMap ⟨Except.ok [1, 2], some [1]⟩ [] "xyz").2.1 (zipName "xyz") = none :=
  ⟨c9_failed_download_leaves_no_file ⟨Except.error "HTTP 500", none⟩ [] "abc" (by decide),
   c9_failed_download_leaves_no_file ⟨Except.ok [1, 2], some [1]⟩ [] "xyz" (by decide)⟩

/-- C10: every file written by `MapPruner.process_all` is whitespace-free:
the serialized record passes through `''.join(json_str.split())`, so no
whitespace character — including whitespace inside string values such as
the `midi_data` transcript — reaches the written bytes. -/
theorem c10_pruned_output_has_no_whitespace (v : JVal) (c : Char)
    (h : c ∈ (writePrunedFile v).data) : isPySpace c = false := by
  unfold writePrunedFile stripAllWhitespace at h
  have h' : c ∈ List.filter (fun c => !isPySpace c) (jsonDumps v).data := h
  rcases List.mem_filter.mp h' with ⟨-, hp⟩
  simpa using hp

/-- Witness for C10: a record whose `midi_data` string contains spaces
still yields a file whose characters are all non-whitespace. -/
theorem c10_pruned_output_has_no_whitespace_witness :
    ('N' ∈ (writePrunedFile (JVal.obj (JObj.cons "midi_data"
        (JVal.str "Note: C4, Start: 0.000s") JObj.nil))).data)
    ∧ isPySpace 'N' = false :=
  ⟨by decide,
   c10_pruned_output_has_no_whitespace
     (JVal.obj (JObj.cons "midi_data" (JVal.str "Note: C4, Start: 0.000s") JObj.nil))
     'N' (by decide)⟩

/-- C8: at most K WorkUnits are ever in flight: in every reachable scheduler
state, the number of tasks holding the semaphore plus the free permits
equals the configured cap, so at most `MAX_CONCURRENT_DOWNLOADS = 5`
downloads and at most `defaultMaxConcurrent = 5` conversions are in flight
simultaneously. -/
theorem c8_bounded_concurrency (s t : SemState)
    (hd : SemReachable MAX_CONCURRENT_DOWNLOADS s)
    (hc : SemReachable defaultMaxConcurrent t) :
    inFlight s ≤ 5 ∧ inFlight t ≤ 5 := by
  have h1 := semReachable_invariant hd
  have h2 := semReachable_invariant hc
  unfold MAX_CONCURRENT_DOWNLOADS at h1
  unfold defaultMaxConcurrent at h2
  omega

/-- Witness for C8 at concrete initial scheduler states. -/
theorem c8_bounded_concurrency_witness :
    inFlight (semInit MAX_CONCURRENT_DOWNLOADS 3) ≤ 5
    ∧ inFlight (semInit defaultMaxConcurrent 7) ≤ 5 :=
  c8_bounded_concurrency _ _ (SemReachable.init 3) (SemReachable.init 7)

/-- C7 (amended): only download units have a destination-exists check:
`download_map` skips a unit whose destination zip already exists (whatever
its contents) and still counts it as a success with no filesystem work,
while `convert_audio` has no such check — a conversion unit always performs
the conversion and overwrites its destination. -/
theorem c7_skip_only_for_downloads :
    (∀ (env : DownloadEnv) (fs : FileMap) (sid : String) (b : Bytes),
        fmRead fs (zipName sid) = some b →
        downloadMap env fs sid = (true, fs, []))
    ∧ (∀ (cenv : ConvEnv) (mfs : FileMap) (folder : String),
        cenv.inputExists = true → cenv.header = .ok oggHeader →
        cenv.conversion = .ok () →
        convertAudio cenv mfs folder
          = (.ok (midiName folder),
              fmWrite mfs (midiName folder) cenv.midiBytes,
              [CvEffect.readHeader, CvEffect.runConversion])) := by
  constructor
  · intro env fs sid b hb
    unfold downloadMap
    simp [hb]
  · intro cenv mfs folder h1 h2 h3
    unfold convertAudio
    simp [h1, h2, h3, oggHeader]

/-- Counterexample for C7 as stated: a conversion unit whose destination
`song.mid` already exists and is non-empty still performs the conversion
(the effect trace contains `runConversion`) and overwrites the destination,
so it is not skipped. -/
theorem c7_counterexample :
    fmRead [("song.mid", [1, 2, 3])] "song.mid" = some [1, 2, 3]
    ∧ (convertAudio ⟨true, .ok oggHeader, .ok (), [7, 7]⟩
        [("song.mid", [1, 2, 3])] "song").2.2
        = [CvEffect.readHeader, CvEffect.runConversion]
    ∧ fmRead (convertAudio ⟨true, .ok oggHeader, .ok (), [7, 7]⟩
        [("song.mid", [1, 2, 3])] "song").2.1 "song.mid" = some [7, 7] := by
  refine ⟨by decide, ?_, ?_⟩ <;> rfl

/-- Witness for C7's amended theorem at concrete inputs. -/
theorem c7_skip_only_for_downloads_witness :
    downloadMap ⟨Except.ok [1], none⟩ [("abc.zip", [5])] "abc"
      = (true, [("abc.zip", [5])], [])
    ∧ convertAudio ⟨true, .ok oggHeader, .ok (), [9]⟩ [] "xyz"
      = (.ok (midiName "xyz"), fmWrite [] (midiName "xyz") [9],
          [CvEffect.readHeader, CvEffect.runConversion]) :=
  ⟨c7_skip_only_for_downloads.1 ⟨Except.ok [1], none⟩ [("abc.zip", [5])] "abc" [5] (by decide),
   c7_skip_only_for_downloads.2 ⟨true, .ok oggHeader, .ok (), [9]⟩ [] "xyz" rfl rfl rfl⟩

/-- Output-directory equality for one stage between two pipeline states. -/
def stageDirEq : StageName → PState → PState → Prop
  | .download, a, b => a.downloads = b.downloads
  | .extract, a, b => a.extracted = b.extracted
  | .convert, a, b => a.midi = b.midi
  | .combine, a, b => a.combined = b.combined
  | .format, a, b => a.formatted = b.formatted
  | .prune, a, b => a.pruned = b.pruned

/-- C2: if the loaded checkpoint marks stage S complete and force is false,
re-executing the pipeline performs zero WorkUnits for S — its stage body is
not entered — and leaves S's output directory byte-identical to before the
run. -/
theorem c2_checkpoint_skip (args : Args) (env : PipelineEnv) (s0 : PState) (S : StageName)
    (hf : args.force = false)
    (hk : ckFlag (loadCheckpoint args s0) S = true) :
    stageDirEq S (runPipeline args env s0).state s0
    ∧ ∀ t ∈ (runPipeline args env s0).traces, t.1 = S →
        t.2.body = false ∧ t.2.unitsAttempted = 0 := by
  cases S with
  | combine => simp [ckFlag] at hk
  | download =>
    have hd := downloadStage_skip env args s0 (loadCheckpoint args s0) hf hk
    simp only [runPipeline, hd]
    rcases hx : extractStage env args s0 (loadCheckpoint args s0) with ⟨e, sE⟩ | x
    · have hsE : sE = s0 := extractStage_error env args s0 _ hx
      simp [hx, stageDirEq, hsE, skipTrace]
    · have hx1 : x.1.downloads = s0.downloads := (extractStage_ok_frame env args s0 _ hx).1
      rcases hc : convertStage env args x.1 x.2.1 with ⟨e2, sC⟩ | c
      · have hsC : sC = x.1 := convertStage_error env args x.1 _ hc
        simp [hc, stageDirEq, hsC, hx1, skipTrace]
      · have hc1 : c.1.downloads = x.1.downloads := (convertStage_ok_frame env args x.1 _ hc).1
        have hcb1 : (combineStage c.1).1.downloads = c.1.downloads := (combineStage_frame c.1).1
        rcases hfm : formatStage env args (combineStage c.1).1 c.2.1 with ⟨e3, sF⟩ | f
        · have hsF := formatStage_error env args (combineStage c.1).1 _ hfm
          simp [hc, hfm, stageDirEq, hsF, hcb1, hc1, hx1, skipTrace]
        · have hf1 : f.1.downloads = (combineStage c.1).1.downloads :=
            (formatStage_ok_frame env args (combineStage c.1).1 _ hfm).1
          have hp1 : (pruneStage env args f.1 f.2.1).1.downloads = f.1.downloads :=
            (pruneStage_frame env args f.1 f.2.1).1
          simp [hc, hfm, stageDirEq, hp1, hf1, hcb1, hc1, hx1, skipTrace]
  | extract =>
    obtain ⟨hd1, -, -, -, -, -⟩ := downloadStage_frame env args s0 (loadCheckpoint args s0)
    have hdk := downloadStage_ckMono env args s0 (loadCheckpoint args s0) hk
    simp only [runPipeline]
    rcases hx : extractStage env args (downloadStage env args s0 (loadCheckpoint args s0)).1
        (downloadStage env args s0 (loadCheckpoint args s0)).2.1 with ⟨e, sE⟩ | x
    · have hsE := extractStage_error env args _ _ hx
      simp [hx, stageDirEq, hsE, hd1, skipTrace]
    · rcases extractStage_skip env args
          (downloadStage env args s0 (loadCheckpoint args s0)).1
          (downloadStage env args s0 (loadCheckpoint args s0)).2.1 hf hdk with hsk | hsk
      · rw [hx] at hsk
        replace hsk := Except.ok.inj hsk
        subst hsk
        dsimp only
        rcases hc : convertStage env args (downloadStage env args s0 (loadCheckpoint args s0)).1
            (downloadStage env args s0 (loadCheckpoint args s0)).2.1 with ⟨e2, sC⟩ | c
        · have hsC := convertStage_error env args _ _ hc
          simp [hc, stageDirEq, hsC, hd1, skipTrace]
        · obtain ⟨-, hcf, -, -, -⟩ := convertStage_ok_frame env args _ _ hc
          obtain ⟨-, hcbf, -, -, -, -, -⟩ := combineStage_frame c.1
          rcases hfm : formatStage env args (combineStage c.1).1 c.2.1 with ⟨e3, sF⟩ | f
          · have hsF := formatStage_error env args _ _ hfm
            simp [hc, hfm, stageDirEq, hsF, hcbf, hcf, hd1, skipTrace]
          · obtain ⟨-, hff, -, -, -, -⟩ := formatStage_ok_frame env args _ _ hfm
            obtain ⟨-, hpf, -, -, -, -⟩ := pruneStage_frame env args f.1 f.2.1
            simp [hc, hfm, stageDirEq, hpf, hff, hcbf, hcf, hd1, skipTrace]
      · rw [hx] at hsk
        simp at hsk
  | convert =>
    obtain ⟨-, hd1, -, -, -, -⟩ := downloadStage_frame env args s0 (loadCheckpoint args s0)
    have hdk := downloadStage_ckMono env args s0 (loadCheckpoint args s0) hk
    simp only [runPipeline]
    rcases hx : extractStage env args (downloadStage env args s0 (loadCheckpoint args s0)).1
        (downloadStage env args s0 (loadCheckpoint args s0)).2.1 with ⟨e, sE⟩ | x
    · have hsE := extractStage_error env args _ _ hx
      simp [hx, stageDirEq, hsE, hd1, skipTrace]
    · obtain ⟨-, hxm, -, -, -⟩ := extractStage_ok_frame env args _ _ hx
      have hxk := extractStage_ckMono env args _ _ hx hdk
      rcases hc : convertStage env args x.1 x.2.1 with ⟨e2, sC⟩ | c
      · have hsC := convertStage_error env args _ _ hc
        simp [hc, stageDirEq, hsC, hxm, hd1, skipTrace]
      · rcases convertStage_skip env args x.1 x.2.1 hf hxk with hsk | hsk
        · rw [hc] at hsk
          replace hsk := Except.ok.inj hsk
          subst hsk
          dsimp only
          obtain ⟨-, -, hcbf, -, -, -, -⟩ := combineStage_frame x.1
          rcases hfm : formatStage env args (combineStage x.1).1 x.2.1 with ⟨e3, sF⟩ | f
          · have hsF := formatStage_error env args _ _ hfm
            simp [hc, hfm, stageDirEq, hsF, hcbf, hxm, hd1, skipTrace]
          · obtain ⟨-, -, hff, -, -, -⟩ := formatStage_ok_frame env args _ _ hfm
            obtain ⟨-, -, hpf, -, -, -⟩ := pruneStage_frame env args f.1 f.2.1
            simp [hc, hfm, stageDirEq, hpf, hff, hcbf, hxm, hd1, skipTrace]
        · rw [hc] at hsk
          simp at hsk
  | format =>
    obtain ⟨-, -, -, hd1, -, -⟩ := downloadStage_frame env args s0 (loadCheckpoint args s0)
    have hdk := downloadStage_ckMono env args s0 (loadCheckpoint args s0) hk
    simp only [runPipeline]
    rcases hx : extractStage env args (downloadStage env args s0 (loadCheckpoint args s0)).1
        (downloadStage env args s0 (loadCheckpoint args s0)).2.1 with ⟨e, sE⟩ | x
    · have hsE := extractStage_error env args _ _ hx
      simp [hx, stageDirEq, hsE, hd1, skipTrace]
    · obtain ⟨-, -, -, hxf, -⟩ := extractStage_ok_frame env args _ _ hx
      have hxk := extractStage_ckMono env args _ _ hx hdk
      rcases hc : convertStage env args x.1 x.2.1 with ⟨e2, sC⟩ | c
      · have hsC := convertStage_error env args _ _ hc
        simp [hc, stageDirEq, hsC, hxf, hd1, skipTrace]
      · obtain ⟨-, -, -, hcf, -⟩ := convertStage_ok_frame env args x.1 x.2.1 hc
        have hck := convertStage_ckMono env args x.1 x.2.1 hc hxk
        obtain ⟨-, -, -, hcbf, -, -, -⟩ := combineStage_frame c.1
        have hfs := formatStage_skip env args (combineStage c.1).1 c.2.1 hf hck
        rcases hfm : formatStage env args (combineStage c.1).1 c.2.1 with ⟨e3, sF⟩ | f
        · rw [hfm] at hfs
          simp at hfs
        · rw [hfm] at hfs
          replace hfs := Except.ok.inj hfs
          subst hfs
          dsimp only
          obtain ⟨-, -, -, -, hpf, -⟩ :=
            pruneStage_frame env args (combineStage c.1).1 c.2.1
          simp [hc, hfm, stageDirEq, hpf, hcbf, hcf, hxf, hd1, skipTrace]
  | prune =>
    obtain ⟨-, -, -, -, hd1, -⟩ := downloadStage_frame env args s0 (loadCheckpoint args s0)
    have hdk := downloadStage_ckMono env args s0 (loadCheckpoint args s0) hk
    simp only [runPipeline]
    rcases hx : extractStage env args (downloadStage env args s0 (loadCheckpoint args s0)).1
        (downloadStage env args s0 (loadCheckpoint args s0)).2.1 with ⟨e, sE⟩ | x
    · have hsE := extractStage_error env args _ _ hx
      simp [hx, stageDirEq, hsE, hd1, skipTrace]
    · obtain ⟨-, -, -, -, hxp⟩ := extractStage_ok_frame env args _ _ hx
      have hxk := extractStage_ckMono env args _ _ hx hdk
      rcases hc : convertStage env args x.1 x.2.1 with ⟨e2, sC⟩ | c
      · have hsC := convertStage_error env args _ _ hc
        simp [hc, stageDirEq, hsC, hxp, hd1, skipTrace]
      · obtain ⟨-, -, -, -, hcp⟩ := convertStage_ok_frame env args x.1 x.2.1 hc
        have hck := convertStage_ckMono env args x.1 x.2.1 hc hxk
        obtain ⟨-, -, -, -, hcbp, -, -⟩ := combineStage_frame c.1
        rcases hfm : formatStage env args (combineStage c.1).1 c.2.1 with ⟨e3, sF⟩ | f
        · have hsF := formatStage_error env args _ _ hfm
          simp [hc, hfm, stageDirEq, hsF, hcbp, hcp, hxp, hd1, skipTrace]
        · obtain ⟨-, -, -, -, hfp, -⟩ := formatStage_ok_frame env args _ _ hfm
          have hfk := formatStage_ckMono env args _ _ hfm hck
          have hps := pruneStage_skip env args f.1 f.2.1 hf hfk
          simp [hc, hfm, hps, stageDirEq, hfp, hcbp, hcp, hxp, hd1, skipTrace]

/-- C6: under force, every resettable stage directory (downloads, extracted,
midi, formatted, pruned) is emptied before its stage body runs (every
executed stage entry records the reset), and each executed stage's output
directory after the run is entirely independent of the prior contents of
the staged directories and of the prior checkpoint: two initial states
differing arbitrarily in them produce the same traces, the same abort
status and the same directory contents for every stage that ran, so no
file from a prior run survives a forced stage. -/
theorem c6_force_reset (args : Args) (env : PipelineEnv) (s0 s0' : PState)
    (hf : args.force = true) (hl : s0.logs = s0'.logs) :
    (runPipeline args env s0).traces = (runPipeline args env s0').traces
    ∧ (runPipeline args env s0).aborted = (runPipeline args env s0').aborted
    ∧ (runPipeline args env s0).state.downloads = (runPipeline args env s0').state.downloads
    ∧ (runPipeline args env s0).state.extracted = (runPipeline args env s0').state.extracted
    ∧ (runPipeline args env s0).state.midi = (runPipeline args env s0').state.midi
    ∧ (runPipeline args env s0).state.combined = (runPipeline args env s0').state.combined
    ∧ (runPipeline args env s0).state.formatted = (runPipeline args env s0').state.formatted
    ∧ ((runPipeline args env s0).aborted = none →
        (runPipeline args env s0).state.pruned = (runPipeline args env s0').state.pruned)
    ∧ ∀ t ∈ (runPipeline args env s0).traces, t.2.body = true → t.2.didReset = true := by
  cases s0; cases s0'
  simp only at hl
  subst hl
  simp only [runPipeline, downloadStage, extractStage, convertStage, combineStage,
    formatStage, pruneStage, loadCheckpoint, hf, Bool.or_true, if_true]
  rcases env.formatOut (combineBuild
      (mergeExtract [] (env.extractOut (downloadAllRun env.dlUnits []).2))
      (convertAllRun env.convEnvOf (env.audioFolders
        (mergeExtract [] (env.extractOut (downloadAllRun env.dlUnits []).2))) []).2) with e | fr
  · simp [hf]
  · simp [hf]

theorem logRead_write_self (logs : List (String × LogFile)) (n : String) (l : LogFile) :
    logRead (logWrite logs n l) n = some l := by
  simp [logRead, logWrite]

theorem logRead_write_other (logs : List (String × LogFile)) (n q : String) (l : LogFile)
    (h : q ≠ n) : logRead (logWrite logs n l) q = logRead logs q := by
  rw [logWrite, logRead, if_neg (fun hnq : n = q => h hnq.symm)]

theorem extractStage_error_cond (env : PipelineEnv) (args : Args) (s : PState)
    (ck : Checkpoint) {e : PError} {sE : PState}
    (h : extractStage env args s ck = .error (e, sE)) :
    args.force = false ∧ ckFlag ck .extract = true
    ∧ logRead s.logs extractionLogName = none := by
  unfold extractStage at h
  by_cases hc : (!ckFlag ck .extract || args.force) = true
  · simp [hc] at h
  · simp only [Bool.or_eq_true, Bool.not_eq_true', not_or, Bool.not_eq_true,
      Bool.not_eq_false] at hc
    refine ⟨hc.2, hc.1, ?_⟩
    simp only [hc.1, hc.2, Bool.not_true, Bool.or_false, Bool.false_eq_true, if_false] at h
    cases hl : logRead s.logs extractionLogName with
    | none => rfl
    | some l => rw [hl] at h; cases h

theorem convertStage_error_cond (env : PipelineEnv) (args : Args) (s : PState)
    (ck : Checkpoint) {e : PError} {sE : PState}
    (h : convertStage env args s ck = .error (e, sE)) :
    args.force = false ∧ ckFlag ck .convert = true
    ∧ logRead s.logs conversionLogName = none := by
  unfold convertStage at h
  by_cases hc : (!ckFlag ck .convert || args.force) = true
  · simp [hc] at h
  · simp only [Bool.or_eq_true, Bool.not_eq_true', not_or, Bool.not_eq_true,
      Bool.not_eq_false] at hc
    refine ⟨hc.2, hc.1, ?_⟩
    simp only [hc.1, hc.2, Bool.not_true, Bool.or_false, Bool.false_eq_true, if_false] at h
    cases hl : logRead s.logs conversionLogName with
    | none => rfl
    | some l => rw [hl] at h; cases h

theorem downloadStage_ckOther (env : PipelineEnv) (args : Args) (s : PState) (ck : Checkpoint)
    {S : StageName} (h : S ≠ .download) :
    ckFlag (downloadStage env args s ck).2.1 S = ckFlag ck S := by
  unfold downloadStage
  by_cases hc : (!ckFlag ck .download || args.force) = true
  · simp only [hc, if_true]
    exact ckFlag_setFlag_other _ h
  · simp [hc]

theorem extractStage_ok_ckOther (env : PipelineEnv) (args : Args) (s : PState) (ck : Checkpoint)
    {x : PState × Checkpoint × StageTrace} (h : extractStage env args s ck = .ok x)
    {S : StageName} (hs : S ≠ .extract) : ckFlag x.2.1 S = ckFlag ck S := by
  rcases extractStage_ok_ck env args s ck h with h1 | h1
  · rw [h1]
    exact ckFlag_setFlag_other _ hs
  · rw [h1]

theorem extractStage_ok_logRead (env : PipelineEnv) (args : Args) (s : PState) (ck : Checkpoint)
    {x : PState × Checkpoint × StageTrace} (h : extractStage env args s ck = .ok x) :
    logRead x.1.logs conversionLogName = logRead s.logs conversionLogName := by
  unfold extractStage at h
  by_cases hc : (!ckFlag ck .extract || args.force) = true
  · simp only [hc, if_true] at h
    cases h
    exact logRead_write_other _ _ _ _ (by decide)
  · simp only [hc, if_false] at h
    cases hl : logRead s.logs extractionLogName with
    | none => rw [hl] at h; cases h
    | some l => rw [hl] at h; cases h; rfl

theorem downloadStage_logs (env : PipelineEnv) (args : Args) (s : PState) (ck : Checkpoint) :
    (downloadStage env args s ck).1.logs = s.logs :=
  (downloadStage_frame env args s ck).2.2.2.2.2

theorem combineStage_combined (s : PState) :
    (combineStage s).1.combined = combineBuild s.extracted s.midi := by
  simp [combineStage]

theorem combineStage_trace (s : PState) :
    (combineStage s).2 = ⟨true, true, s.extracted.length, none⟩ := rfl

/-- C4: the Combine step has no checkpoint-skip path.  On every run that
executes it (any checkpoint contents, any force flag; the only runs that do
not reach it abort earlier on an unreadable stage log), it rebuilds the
combined directory from scratch as a pure function of the current extracted
and midi directories: exactly one `combined/<song_id>` entry per extracted
song directory, holding that song's extracted files plus
`midi_output/<song_id>.mid` exactly when `midi/<song_id>.mid` exists.  The
old combined contents do not appear in the result. -/
theorem c4_combine_always_rebuilds (args : Args) (env : PipelineEnv) (s0 : PState)
    (hX : args.force = false → ckFlag (loadCheckpoint args s0) .extract = true →
        (logRead s0.logs extractionLogName).isSome)
    (hC : args.force = false → ckFlag (loadCheckpoint args s0) .convert = true →
        (logRead s0.logs conversionLogName).isSome) :
    (runPipeline args env s0).state.combined
      = combineBuild (runPipeline args env s0).state.extracted
          (runPipeline args env s0).state.midi
    ∧ (StageName.combine,
        (⟨true, true, (runPipeline args env s0).state.extracted.length, none⟩ : StageTrace))
        ∈ (runPipeline args env s0).traces := by
  simp only [runPipeline]
  rcases hx : extractStage env args (downloadStage env args s0 (loadCheckpoint args s0)).1
      (downloadStage env args s0 (loadCheckpoint args s0)).2.1 with ⟨e, sE⟩ | x
  · obtain ⟨hf0, hflag, hnone⟩ := extractStage_error_cond env args _ _ hx
    rw [downloadStage_ckOther env args s0 (loadCheckpoint args s0) (by decide)] at hflag
    rw [downloadStage_logs] at hnone
    have hsome := hX hf0 hflag
    rw [hnone] at hsome
    simp at hsome
  · rcases hc : convertStage env args x.1 x.2.1 with ⟨e2, sC⟩ | c
    · obtain ⟨hf0, hflag, hnone⟩ := convertStage_error_cond env args _ _ hc
      rw [extractStage_ok_ckOther env args _ _ hx (by decide)] at hflag
      rw [downloadStage_ckOther env args s0 (loadCheckpoint args s0) (by decide)] at hflag
      rw [extractStage_ok_logRead env args _ _ hx] at hnone
      rw [downloadStage_logs] at hnone
      have hsome := hC hf0 hflag
      rw [hnone] at hsome
      simp at hsome
    · obtain ⟨-, hcbx, hcbm, -, -, -, -⟩ := combineStage_frame c.1
      rcases hfm : formatStage env args (combineStage c.1).1 c.2.1 with ⟨e3, sF⟩ | f
      · have hsF := formatStage_error env args _ _ hfm
        constructor
        · simp [hc, hfm, hsF, hcbx, hcbm, combineStage_combined]
        · simp [hc, hfm, hsF, hcbx, hcbm, combineStage_trace]
      · obtain ⟨-, hfx, hfmi, hfc, -, -⟩ := formatStage_ok_frame env args _ _ hfm
        obtain ⟨-, hpx, hpmi, hpc, -, -⟩ := pruneStage_frame env args f.1 f.2.1
        constructor
        · simp [hc, hfm, hpx, hpmi, hpc, hfx, hfmi, hfc, hcbx, hcbm, combineStage_combined]
        · simp [hc, hfm, hpx, hpmi, hpc, hfx, hfmi, hfc, hcbx, hcbm, combineStage_trace]

/-! ### Checkpoint persistence: `save_checkpoint` and its timing

`save_checkpoint` (run_pipeline.py lines 26-29) is
`with open(file_path, 'w') as f: json.dump(data, f, indent=2)`:
opening with mode `'w'` truncates the file in place, then the dump writes
the new contents.  `saveCheckpointEvents` is that event sequence;
`ckFileAfter` replays events over the on-disk file state. -/

inductive CkFileEvt
  | truncate
  | writeAll (c : Checkpoint)
deriving DecidableEq, Repr

inductive CkFileState
  | absent
  | truncated
  | full (c : Checkpoint)
deriving DecidableEq, Repr

def ckFileApply : CkFileState → CkFileEvt → CkFileState
  | _, .truncate => .truncated
  | _, .writeAll c => .full c

def ckFileAfter (s : CkFileState) (evts : List CkFileEvt) : CkFileState :=
  evts.foldl ckFileApply s

/-- The embedding of `save_checkpoint`: truncate, then write. -/
def saveCheckpointEvents (c : Checkpoint) : List CkFileEvt :=
  [.truncate, .writeAll c]

/-- Checks, entry by entry in execution order, that exactly the committing
checkpointed stages persist the checkpoint, and that each such persist
happens inside that stage's own entry — before any later entry — writing
exactly the previous cumulative checkpoint plus that stage's flag (never
batched with another stage's flag). -/
def immediatePersist : Checkpoint → List (StageName × StageTrace) → Bool
  | _, [] => true
  | prev, (S, t) :: rest =>
      if t.body && isCheckpointed S then
        match t.savedCk with
        | some c => if c = setFlag prev S then immediatePersist c rest else false
        | none => false
      else
        match t.savedCk with
        | some _ => false
        | none => immediatePersist prev rest

/-- The checkpoint contents most recently persisted during the run. -/
def lastSavedCk : Option Checkpoint → List (StageName × StageTrace) → Option Checkpoint
  | acc, [] => acc
  | acc, (_, t) :: rest =>
      lastSavedCk (match t.savedCk with | some c => some c | none => acc) rest

theorem downloadStage_persist (env : PipelineEnv) (args : Args) (s : PState) (ck : Checkpoint) :
    ((downloadStage env args s ck).2.2.body = true
      ∧ (downloadStage env args s ck).2.2.savedCk = some (setFlag ck .download)
      ∧ (downloadStage env args s ck).2.1 = setFlag ck .download
      ∧ (downloadStage env args s ck).1.ckFile = some (setFlag ck .download))
    ∨ ((downloadStage env args s ck).2.2 = skipTrace
      ∧ (downloadStage env args s ck).2.1 = ck
      ∧ (downloadStage env args s ck).1.ckFile = s.ckFile) := by
  unfold downloadStage
  by_cases h : (!ckFlag ck .download || args.force) = true
  · left; simp [h]
  · right; simp [h]

theorem extractStage_persist (env : PipelineEnv) (args : Args) (s : PState) (ck : Checkpoint)
    {x : PState × Checkpoint × StageTrace} (h : extractStage env args s ck = .ok x) :
    (x.2.2.body = true ∧ x.2.2.savedCk = some (setFlag ck .extract)
      ∧ x.2.1 = setFlag ck .extract ∧ x.1.ckFile = some (setFlag ck .extract))
    ∨ (x.2.2 = skipTrace ∧ x.2.1 = ck ∧ x.1.ckFile = s.ckFile) := by
  unfold extractStage at h
  by_cases hc : (!ckFlag ck .extract || args.force) = true
  · simp only [hc, if_true] at h
    cases h
    left; simp
  · simp only [hc, if_false] at h
    cases hl : logRead s.logs extractionLogName with
    | none => rw [hl] at h; cases h
    | some l => rw [hl] at h; cases h; right; simp

theorem convertStage_persist (env : PipelineEnv) (args : Args) (s : PState) (ck : Checkpoint)
    {x : PState × Checkpoint × StageTrace} (h : convertStage env args s ck = .ok x) :
    (x.2.2.body = true ∧ x.2.2.savedCk = some (setFlag ck .convert)
      ∧ x.2.1 = setFlag ck .convert ∧ x.1.ckFile = some (setFlag ck .convert))
    ∨ (x.2.2 = skipTrace ∧ x.2.1 = ck ∧ x.1.ckFile = s.ckFile) := by
  unfold convertStage at h
  by_cases hc : (!ckFlag ck .convert || args.force) = true
  · simp only [hc, if_true] at h
    cases h
    left; simp
  · simp only [hc, if_false] at h
    cases hl : logRead s.logs conversionLogName with
    | none => rw [hl] at h; cases h
    | some l => rw [hl] at h; cases h; right; simp

theorem formatStage_persist (env : PipelineEnv) (args : Args) (s : PState) (ck : Checkpoint)
    {x : PState × Checkpoint × StageTrace} (h : formatStage env args s ck = .ok x) :
    (x.2.2.body = true ∧ x.2.2.savedCk = some (setFlag ck .format)
      ∧ x.2.1 = setFlag ck .format ∧ x.1.ckFile = some (setFlag ck .format))
    ∨ (x.2.2 = skipTrace ∧ x.2.1 = ck ∧ x.1.ckFile = s.ckFile) := by
  unfold formatStage at h
  by_cases hc : (!ckFlag ck .format || args.force) = true
  · simp only [hc, if_true] at h
    cases hm : env.formatOut s.combined with
    | error e => rw [hm] at h; cases h
    | ok fresh => rw [hm] at h; cases h; left; simp
  · simp only [hc, if_false] at h
    cases h
    right; simp

theorem pruneStage_persist (env : PipelineEnv) (args : Args) (s : PState) (ck : Checkpoint) :
    ((pruneStage env args s ck).2.2.body = true
      ∧ (pruneStage env args s ck).2.2.savedCk = some (setFlag ck .prune)
      ∧ (pruneStage env args s ck).2.1 = setFlag ck .prune
      ∧ (pruneStage env args s ck).1.ckFile = some (setFlag ck .prune))
    ∨ ((pruneStage env args s ck).2.2 = skipTrace
      ∧ (pruneStage env args s ck).2.1 = ck
      ∧ (pruneStage env args s ck).1.ckFile = s.ckFile) := by
  unfold pruneStage
  by_cases h : (!ckFlag ck .prune || args.force) = true
  · left; simp [h]
  · right; simp [h]

theorem extractStage_error_ckFile (env : PipelineEnv) (args : Args) (s : PState)
    (ck : Checkpoint) {e : PError} {sE : PState}
    (h : extractStage env args s ck = .error (e, sE)) : sE.ckFile = s.ckFile := by
  rw [extractStage_error env args s ck h]

theorem convertStage_error_ckFile (env : PipelineEnv) (args : Args) (s : PState)
    (ck : Checkpoint) {e : PError} {sE : PState}
    (h : convertStage env args s ck = .error (e, sE)) : sE.ckFile = s.ckFile := by
  rw [convertStage_error env args s ck h]

theorem formatStage_error_ckFile (env : PipelineEnv) (args : Args) (s : PState)
    (ck : Checkpoint) {e : PError} {sE : PState}
    (h : formatStage env args s ck = .error (e, sE)) : sE.ckFile = s.ckFile := by
  rw [formatStage_error env args s ck h]

/-- C5 (amended): after every checkpointed stage commits, the checkpoint
mapping is persisted within that stage's own entry — before any later stage
begins, never batched, each persist writing exactly the previous cumulative
checkpoint plus that stage's flag — and the on-disk checkpoint file always
equals the most recently persisted contents (or the original file when no
stage persisted), so a crash between stages leaves the checkpoint
consistent with exactly the stages that completed.  The persist itself,
however, is a truncate-then-write of the same file, not an atomic file
replace (see the counterexample). -/
theorem c5_immediate_persist (args : Args) (env : PipelineEnv) (s0 : PState) :
    immediatePersist (loadCheckpoint args s0) (runPipeline args env s0).traces = true
    ∧ (runPipeline args env s0).state.ckFile
        = (match lastSavedCk none (runPipeline args env s0).traces with
           | some c => some c
           | none => s0.ckFile) := by
  simp only [runPipeline]
  rcases downloadStage_persist env args s0 (loadCheckpoint args s0) with
    ⟨hdb, hds, hdc, hdf⟩ | ⟨hdt, hdc, hdf⟩
  all_goals rcases hx : (extractStage env args (downloadStage env args s0 (loadCheckpoint args s0)).1 (downloadStage env args s0 (loadCheckpoint args s0)).2.1) with ⟨e, sE⟩ | x
  all_goals try (have hse := extractStage_error_ckFile env args _ _ hx; simp_all [immediatePersist, lastSavedCk, isCheckpointed, skipTrace])
  all_goals rcases extractStage_persist env args _ _ hx with
    ⟨hxb, hxs, hxc, hxf⟩ | ⟨hxt, hxc, hxf⟩
  all_goals rcases hc : (convertStage env args x.1 x.2.1) with ⟨e2, sC⟩ | c
  all_goals try (have hsc := convertStage_error_ckFile env args _ _ hc; simp_all [immediatePersist, lastSavedCk, isCheckpointed, skipTrace])
  all_goals rcases convertStage_persist env args _ _ hc with
    ⟨hcb, hcs, hcc, hcf⟩ | ⟨hct, hcc, hcf⟩
  all_goals have hcbt := combineStage_trace c.1
  all_goals have hcbf := (combineStage_frame c.1).2.2.2.2.2.2
  all_goals rcases hfm : (formatStage env args (combineStage c.1).1 c.2.1) with ⟨e3, sF⟩ | f
  all_goals try (have hsf := formatStage_error_ckFile env args _ _ hfm; simp_all [immediatePersist, lastSavedCk, isCheckpointed, skipTrace])
  all_goals rcases formatStage_persist env args _ _ hfm with
    ⟨hfb, hfs, hfc, hff⟩ | ⟨hft, hfc, hff⟩
  all_goals rcases pruneStage_persist env args f.1 f.2.1 with
    ⟨hpb, hps, hpc, hpf⟩ | ⟨hpt, hpc, hpf⟩
  all_goals simp_all [immediatePersist, lastSavedCk, isCheckpointed, skipTrace]

/-- Counterexample for C5 as stated: `save_checkpoint` is not an atomic
file replace.  Replaying its event sequence over a checkpoint file that
currently holds the empty checkpoint, the state after the first event
(the truncation performed by `open(file, 'w')`) is a truncated file that
matches neither the old nor the new checkpoint contents, so a crash at
that point corrupts the checkpoint file. -/
theorem c5_counterexample :
    ckFileAfter (.full emptyCheckpoint)
        ((saveCheckpointEvents ⟨true, false, false, false, false⟩).take 1)
      = CkFileState.truncated
    ∧ CkFileState.truncated ≠ CkFileState.full emptyCheckpoint
    ∧ CkFileState.truncated ≠ CkFileState.full ⟨true, false, false, false, false⟩ :=
  ⟨rfl, by decide, by decide⟩

/-- The per-unit conversion outcomes of a run whose Convert stage saw the
given extracted directory. -/
def convOutcomes (env : PipelineEnv) (extracted : List (String × FileMap)) :
    List (Except String String) :=
  (env.audioFolders extracted).map (fun f => convertOutcome (env.convEnvOf f) f)

def convSucc (outs : List (Except String String)) : List String :=
  outs.filterMap (fun o => match o with | .ok p => some p | .error _ => none)

def convErrs (outs : List (Except String String)) : List String :=
  outs.filterMap (fun o => match o with | .ok _ => none | .error e => some e)

/-- C3 (amended): when the Download and Convert stage bodies run, any number
of per-unit failures still lets both stages commit: the Convert stage's log
file records the attempted/succeeded/failed counts (attempted = succeeded +
failed over all units), both completion flags end up true in the persisted
checkpoint file, the Download stage's trace shows every unit attempted and
its checkpoint commit — though no per-stage log file is written for the
Download stage — and execution proceeds past both stages to the Combine
step rather than aborting. -/
theorem c3_partial_failure_commit (args : Args) (env : PipelineEnv) (s0 : PState)
    (h1 : (!ckFlag (loadCheckpoint args s0) .download || args.force) = true)
    (h2 : (!ckFlag (loadCheckpoint args s0) .extract || args.force) = true)
    (h3 : (!ckFlag (loadCheckpoint args s0) .convert || args.force) = true) :
    ((runPipeline args env s0).state.ckFile.map
        (fun c => ckFlag c .download && ckFlag c .convert)) = some true
    ∧ logRead (runPipeline args env s0).state.logs conversionLogName
        = some (.conversion
            ⟨(convSucc (convOutcomes env (runPipeline args env s0).state.extracted)).length
              + (convErrs (convOutcomes env (runPipeline args env s0).state.extracted)).length,
              (convSucc (convOutcomes env (runPipeline args env s0).state.extracted)).length,
              (convErrs (convOutcomes env (runPipeline args env s0).state.extracted)).length,
              convSucc (convOutcomes env (runPipeline args env s0).state.extracted),
              convErrs (convOutcomes env (runPipeline args env s0).state.extracted)⟩)
    ∧ (StageName.download, (⟨args.force, true, env.dlUnits.length,
        some (setFlag (loadCheckpoint args s0) .download)⟩ : StageTrace))
        ∈ (runPipeline args env s0).traces
    ∧ (StageName.combine,
        (⟨true, true, (runPipeline args env s0).state.extracted.length, none⟩ : StageTrace))
        ∈ (runPipeline args env s0).traces := by
  have hd := downloadStage_body env args s0 (loadCheckpoint args s0) h1
  have hd2 : (downloadStage env args s0 (loadCheckpoint args s0)).2.1
      = setFlag (loadCheckpoint args s0) .download := by rw [hd]
  have hdt : (downloadStage env args s0 (loadCheckpoint args s0)).2.2
      = ⟨args.force, true, env.dlUnits.length, some (setFlag (loadCheckpoint args s0) .download)⟩ := by
    rw [hd]
    simp [downloadAllRun_length]
  have h2' : (!ckFlag (downloadStage env args s0 (loadCheckpoint args s0)).2.1 .extract
      || args.force) = true := by
    rw [downloadStage_ckOther env args s0 (loadCheckpoint args s0) (by decide)]
    exact h2
  simp only [runPipeline]
  rcases hx : (extractStage env args (downloadStage env args s0 (loadCheckpoint args s0)).1 (downloadStage env args s0 (loadCheckpoint args s0)).2.1) with ⟨e, sE⟩ | x
  · obtain ⟨hf0, hflag, -⟩ := extractStage_error_cond env args _ _ hx
    rw [hflag, hf0] at h2'
    simp at h2'
  · have hxeq := extractStage_body env args
      (downloadStage env args s0 (loadCheckpoint args s0)).1
      (downloadStage env args s0 (loadCheckpoint args s0)).2.1 h2'
    rw [hx] at hxeq
    have hxv := Except.ok.inj hxeq
    have hx2 : x.2.1 = setFlag (downloadStage env args s0 (loadCheckpoint args s0)).2.1
        .extract := by rw [hxv]
    have h3' : (!ckFlag x.2.1 .convert || args.force) = true := by
      rw [hx2, ckFlag_setFlag_other _ (by decide),
        downloadStage_ckOther env args s0 (loadCheckpoint args s0) (by decide)]
      exact h3
    rcases hc : (convertStage env args x.1 x.2.1) with ⟨e2, sC⟩ | c
    · obtain ⟨hf0, hflag, -⟩ := convertStage_error_cond env args _ _ hc
      rw [hflag, hf0] at h3'
      simp at h3'
    · have hceq := convertStage_body env args x.1 x.2.1 h3'
      rw [hc] at hceq
      have hcv := Except.ok.inj hceq
      have hclogs : c.1.logs = logWrite x.1.logs conversionLogName (.conversion
          ⟨(convSucc (convOutcomes env x.1.extracted)).length
            + (convErrs (convOutcomes env x.1.extracted)).length,
            (convSucc (convOutcomes env x.1.extracted)).length,
            (convErrs (convOutcomes env x.1.extracted)).length,
            convSucc (convOutcomes env x.1.extracted),
            convErrs (convOutcomes env x.1.extracted)⟩) := by
        rw [hcv]
        simp [convSucc, convErrs, convOutcomes, convertAllRun_outcomes]
      have hcx : c.1.extracted = x.1.extracted := by rw [hcv]
      have hcck : c.1.ckFile = some (setFlag x.2.1 .convert) := by rw [hcv]
      have hc2 : c.2.1 = setFlag x.2.1 .convert := by rw [hcv]
      have hflags : ckFlag (setFlag x.2.1 .convert) .download = true
          ∧ ckFlag (setFlag x.2.1 .convert) .convert = true := by
        constructor
        · rw [ckFlag_setFlag_other _ (by decide), hx2,
            ckFlag_setFlag_other _ (by decide), hd2]
          simp [ckFlag, setFlag]
        · simp [ckFlag, setFlag]
      obtain ⟨hbd, hbx, hbm, hbf, hbp, hbl, hbc⟩ := combineStage_frame c.1
      have hbt := combineStage_trace c.1
      rcases hfm : (formatStage env args (combineStage c.1).1 c.2.1) with ⟨e3, sF⟩ | f
      · have hsF := formatStage_error env args _ _ hfm
        simp only [hc, hfm]
        refine ⟨?_, ?_, ?_, ?_⟩
        · rw [hsF]
          simp only [hbc, hcck]
          simp [hflags.1, hflags.2]
        · rw [hsF]
          simp only [hbl, hclogs, hbx, hcx]
          exact logRead_write_self _ _ _
        · simp [hdt]
        · rw [hsF]
          simp only [hbx, hcx]
          simp [hbt, hcx]
      · obtain ⟨-, hfx, -, -, -, hfl⟩ := formatStage_ok_frame env args _ _ hfm
        obtain ⟨-, hpx, -, -, -, hpl⟩ := pruneStage_frame env args f.1 f.2.1
        simp only [hc, hfm]
        rcases formatStage_persist env args _ _ hfm with ⟨-, -, hfc, hff⟩ | ⟨-, hfc, hff⟩
        all_goals rcases pruneStage_persist env args f.1 f.2.1 with ⟨-, -, -, hpf⟩ | ⟨-, -, hpf⟩
        all_goals refine ⟨?_, ?_, ?_, ?_⟩
        all_goals try (simp only [hpf, hff, hbc, hcck]; simp [hfc, hc2, hx2, hd2, ckFlag, setFlag]; done)
        all_goals try (simp only [hpl, hfl, hbl, hclogs, hpx, hfx, hbx, hcx]; exact logRead_write_self _ _ _)
        all_goals try (simp [hdt]; done)
        all_goals simp [hpx, hfx, hbx, hcx, hbt]

def c3Args : Args := ⟨1, false, "Hard", false⟩

def c3Env : PipelineEnv :=
  ⟨[("s1", ⟨.error "HTTP 404", none⟩)], fun _ => [], fun _ => [],
    fun _ => ⟨false, .error "io", .error "io", []⟩, fun _ => .ok [], fun _ _ => []⟩

def c3S0 : PState := ⟨[], [], [], [], [], [], [], none⟩

/-- Counterexample for C3 as stated: a run whose single download unit fails
still commits every stage and proceeds to the end, but the log directory
afterwards holds only the extraction and conversion logs — no per-stage log
recording the Download stage's attempted/succeeded/failed counts is ever
written. -/
theorem c3_counterexample :
    (downloadAllRun c3Env.dlUnits []).1 = [false]
    ∧ (runPipeline c3Args c3Env c3S0).aborted = none
    ∧ (runPipeline c3Args c3Env c3S0).state.ckFile
        = some ⟨true, true, true, true, true⟩
    ∧ (runPipeline c3Args c3Env c3S0).state.logs.map Prod.fst
        = [conversionLogName, extractionLogName] := by
  refine ⟨by decide, by decide, by decide, by decide⟩

/-- Witness for C3's amended theorem: a run with one failing download unit,
instantiated concretely. -/
theorem c3_partial_failure_commit_witness :
    ((runPipeline c3Args c3Env c3S0).state.ckFile.map
        (fun c => ckFlag c .download && ckFlag c .convert)) = some true
    ∧ (StageName.download,
        (⟨c3Args.force, true, c3Env.dlUnits.length,
          some (setFlag (loadCheckpoint c3Args c3S0) .download)⟩ : StageTrace))
        ∈ (runPipeline c3Args c3Env c3S0).traces :=
  ⟨(c3_partial_failure_commit c3Args c3Env c3S0 (by decide) (by decide) (by decide)).1,
   (c3_partial_failure_commit c3Args c3Env c3S0 (by decide) (by decide) (by decide)).2.2.1⟩

def c2Args : Args := ⟨1, false, "Hard", false⟩

def c2Env : PipelineEnv :=
  ⟨[("s9", ⟨.ok [1], none⟩)], fun _ => [], fun _ => [],
    fun _ => ⟨false, .error "io", .error "io", []⟩, fun _ => .ok [], fun _ _ => []⟩

def c2S0 : PState :=
  ⟨[("old.zip", [1])], [], [], [], [], [], [], some ⟨true, false, false, false, false⟩⟩

/-- Witness for C2: a state whose checkpoint marks Download complete; the
run leaves the downloads directory untouched and records a skip entry. -/
theorem c2_checkpoint_skip_witness :
    stageDirEq .download (runPipeline c2Args c2Env c2S0).state c2S0
    ∧ skipTrace.body = false ∧ skipTrace.unitsAttempted = 0 :=
  ⟨(c2_checkpoint_skip c2Args c2Env c2S0 .download rfl (by decide)).1,
   (c2_checkpoint_skip c2Args c2Env c2S0 .download rfl (by decide)).2
     (.download, skipTrace) (by decide) rfl⟩

def c4Args : Args := ⟨1, false, "Hard", false⟩

def c4Env : PipelineEnv :=
  ⟨[], fun _ => [⟨"songA", [("info.dat", [1])], false⟩], fun _ => [],
    fun _ => ⟨false, .error "io", .error "io", []⟩, fun _ => .ok [], fun _ _ => []⟩

def c4S0 : PState :=
  ⟨[], [], [], [("stale", ⟨[], none⟩)], [], [], [], none⟩

/-- Witness for C4: a run over a state containing a stale combined entry. -/
theorem c4_combine_always_rebuilds_witness :
    (runPipeline c4Args c4Env c4S0).state.combined
      = combineBuild (runPipeline c4Args c4Env c4S0).state.extracted
          (runPipeline c4Args c4Env c4S0).state.midi
    ∧ (StageName.combine,
        (⟨true, true, (runPipeline c4Args c4Env c4S0).state.extracted.length, none⟩
          : StageTrace))
        ∈ (runPipeline c4Args c4Env c4S0).traces :=
  c4_combine_always_rebuilds c4Args c4Env c4S0 (by decide) (by decide)

def c6Args : Args := ⟨1, true, "Hard", false⟩

def c6Env : PipelineEnv :=
  ⟨[("s1", ⟨.ok [3], none⟩)], fun _ => [], fun _ => [],
    fun _ => ⟨false, .error "io", .error "io", []⟩, fun _ => .ok [], fun _ _ => []⟩

def c6S0 : PState :=
  ⟨[("sentinel.zip", [9])], [("stale", [])], [("stale.mid", [1])], [], [("old.json", [2])],
    [("old.json", [3])], [], some ⟨true, true, true, true, true⟩⟩

def c6S0' : PState := ⟨[], [], [], [], [], [], [], none⟩

/-- Witness for C6: a forced run from a state full of sentinel files and a
pristine state produce identical traces and identical downloads output. -/
theorem c6_force_reset_witness :
    (runPipeline c6Args c6Env c6S0).traces = (runPipeline c6Args c6Env c6S0').traces
    ∧ (runPipeline c6Args c6Env c6S0).state.downloads
        = (runPipeline c6Args c6Env c6S0').state.downloads :=
  ⟨(c6_force_reset c6Args c6Env c6S0 c6S0' rfl rfl).1,
   (c6_force_reset c6Args c6Env c6S0 c6S0' rfl rfl).2.2.1⟩
